import Mathlib

/-!
Verification of the room/poll coordination server.

The definitions below are a shallow embedding of the JavaScript source:
the event controller (`createPoll` / `votePoll` / event records), the
socket handlers of `server.js` (`create-room`, `join-room-old`,
`approve-join`, `confirm-join`, `event-send-message`, `event-start-poll`,
`event-vote-poll`, `disconnecting`, `disconnect`) and the WebRTC handler
(`create-room`, `disconnect`).  JavaScript `Map`s become association
lists, in-place mutation becomes explicit state passing, `socket.emit`
becomes an explicit list of emissions, and `setTimeout` becomes an armed
timer entry consumed by an explicit fire event.
-/

/-- Association list modelling a JavaScript `Map` keyed by strings. -/
abbrev SMap (α : Type) : Type := List (String × α)

/-- JavaScript `Map.get`: the value at the first (unique) matching key. -/
def mget {α : Type} (m : SMap α) (k : String) : Option α :=
  match m with
  | [] => none
  | p :: ps => if p.1 == k then some p.2 else mget ps k

/-- JavaScript `Map.set`: replace the entry in place if the key exists,
otherwise append a new entry. -/
def mset {α : Type} (m : SMap α) (k : String) (v : α) : SMap α :=
  match m with
  | [] => [(k, v)]
  | p :: ps => if p.1 == k then (k, v) :: ps else p :: mset ps k v

/-- JavaScript `Map.delete`: drop the entry with the given key. -/
def mdel {α : Type} (m : SMap α) (k : String) : SMap α :=
  match m with
  | [] => []
  | p :: ps => if p.1 == k then ps else p :: mdel ps k

theorem mget_mset_self {α : Type} (m : SMap α) (k : String) (v : α) :
    mget (mset m k v) k = some v := by
  induction m with
  | nil => simp [mget, mset]
  | cons p ps ih =>
    by_cases h : p.1 = k
    · simp [mset, mget, h]
    · simp only [mset, mget, beq_iff_eq, h, if_false, if_neg h]
      exact ih

theorem mget_mset_ne {α : Type} (m : SMap α) (k k' : String) (v : α) (h : k' ≠ k) :
    mget (mset m k v) k' = mget m k' := by
  induction m with
  | nil => simp [mget, mset, beq_iff_eq, Ne.symm h]
  | cons p ps ih =>
    by_cases hp : p.1 = k
    · subst hp
      simp [mset, mget, beq_iff_eq, Ne.symm h]
    · simp only [mset, beq_iff_eq, if_neg hp, mget]
      by_cases hp' : p.1 = k'
      · simp [hp']
      · simp only [beq_iff_eq, if_neg hp']
        exact ih

/-- JavaScript `array.includes(x)` on a list of strings. -/
def memberStr (u : String) (l : List String) : Bool :=
  match l with
  | [] => false
  | x :: xs => if x == u then true else memberStr u xs

theorem memberStr_append (u : String) (l₁ l₂ : List String) :
    memberStr u (l₁ ++ l₂) = (memberStr u l₁ || memberStr u l₂) := by
  induction l₁ with
  | nil => simp [memberStr]
  | cons x xs ih =>
    by_cases h : x = u
    · simp [memberStr, h]
    · simp [memberStr, h, ih]

theorem memberStr_singleton_ne (u v : String) (h : v ≠ u) :
    memberStr u [v] = false := by
  simp [memberStr, h]

/-- The `findIndex`-then-assign idiom: rewrite the first element that
satisfies the predicate, leave everything else untouched. -/
def updateFirst {α : Type} (p : α → Bool) (f : α → α) : List α → List α
  | [] => []
  | x :: xs => if p x then f x :: xs else x :: updateFirst p f xs

/-- The `findIndex`-then-`splice(i, 1)` idiom: remove the first element
that satisfies the predicate. -/
def removeFirst {α : Type} (p : α → Bool) : List α → List α
  | [] => []
  | x :: xs => if p x then xs else x :: removeFirst p xs

theorem updateFirst_length {α : Type} (p : α → Bool) (f : α → α) (l : List α) :
    (updateFirst p f l).length = l.length := by
  induction l with
  | nil => rfl
  | cons x xs ih =>
    by_cases h : p x = true
    · simp [updateFirst, h]
    · simp [updateFirst, h, ih]

theorem countP_updateFirst_of_pres {α : Type} (q p : α → Bool) (f : α → α) (l : List α)
    (h : ∀ x, q (f x) = q x) :
    (updateFirst p f l).countP q = l.countP q := by
  induction l with
  | nil => rfl
  | cons x xs ih =>
    by_cases hp : p x = true
    · simp [updateFirst, hp, List.countP_cons, h]
    · simp [updateFirst, hp, List.countP_cons, ih]

theorem countP_updateFirst_stable {α : Type} (q : α → Bool) (f : α → α) (l : List α)
    (h : ∀ x, q x = true → q (f x) = true) :
    (updateFirst q f l).countP q = l.countP q := by
  induction l with
  | nil => rfl
  | cons x xs ih =>
    by_cases hq : q x = true
    · simp [updateFirst, hq, List.countP_cons, h x hq]
    · simp [updateFirst, hq, List.countP_cons, ih]

theorem countP_updateFirst_le {α : Type} (q p : α → Bool) (f : α → α) (l : List α) :
    (updateFirst p f l).countP q ≤ l.countP q + 1 := by
  induction l with
  | nil => simp [updateFirst]
  | cons x xs ih =>
    by_cases hp : p x = true
    · by_cases hfx : q (f x) = true
      · by_cases hx : q x = true
        · simp [updateFirst, hp, List.countP_cons, hfx, hx]
        · simp [updateFirst, hp, List.countP_cons, hfx, hx]
      · by_cases hx : q x = true
        · simp [updateFirst, hp, List.countP_cons, hfx, hx]
          omega
        · simp [updateFirst, hp, List.countP_cons, hfx, hx]
    · by_cases hx : q x = true
      · simp [updateFirst, hp, List.countP_cons, hx]
        omega
      · simp [updateFirst, hp, List.countP_cons, hx]
        omega

/-- JavaScript truthiness of a possibly-undefined number: `undefined`
and `0` are falsy. -/
def jsFalsyNat : Option Nat → Bool
  | none => true
  | some 0 => true
  | some (_ + 1) => false

/-- The `duration || 60` default used by `createPoll` and the poll
timers: an omitted or zero duration becomes 60 seconds. -/
def effDuration (d : Option Nat) : Nat :=
  if jsFalsyNat d then 60 else d.getD 0

inductive PollStatus
  | active
  | closed
deriving DecidableEq, Repr

/-- One entry of `poll.options` as built by `createPoll`. -/
structure PollOption where
  id : Nat
  text : String
  votes : Nat
  voters : List String
deriving DecidableEq, Repr

/-- A poll record as stored in `eventPolls` by the REST `createPoll`. -/
structure Poll where
  id : String
  eventId : String
  question : String
  options : List PollOption
  duration : Nat
  createdAt : Nat
  expiresAt : Nat
  status : PollStatus
  totalVotes : Nat
deriving DecidableEq, Repr

/-- `options.map((option, index) => ({id: index, text: option, votes: 0,
voters: []}))` from `createPoll`. -/
def mkPollOptions (texts : List String) : List PollOption :=
  texts.enum.map (fun it => { id := it.1, text := it.2, votes := 0, voters := [] })

/-- The poll record built by `createPoll` at time `now` (seconds). -/
def createPoll (now : Nat) (pollId eventId question : String)
    (texts : List String) (dur : Option Nat) : Poll :=
  { id := pollId
    eventId := eventId
    question := question
    options := mkPollOptions texts
    duration := effDuration dur
    createdAt := now
    expiresAt := now + effDuration dur
    status := PollStatus.active
    totalVotes := 0 }

/-- `poll.options.some(option => option.voters.includes(userId))`. -/
def Poll.hasVoted (p : Poll) (userId : String) : Bool :=
  p.options.any (fun o => memberStr userId o.voters)

/-- The successful-vote mutation of `votePoll`: `option.votes++;
option.voters.push(userId); poll.totalVotes++` on the option found by
`poll.options.find(opt => opt.id === optionId)`. -/
def Poll.castVote (p : Poll) (optionId : Nat) (userId : String) : Poll :=
  { p with
    options := updateFirst (fun o => o.id == optionId)
      (fun o => { o with votes := o.votes + 1, voters := o.voters ++ [userId] }) p.options
    totalVotes := p.totalVotes + 1 }

inductive VoteError
  | pollNotFound
  | pollNotActive
  | alreadyVoted
  | invalidOption
deriving DecidableEq, Repr

/-- The REST `votePoll` handler: each early-return error of the source
becomes an `Except.error`; the successful path updates the poll store. -/
def votePoll (polls : SMap Poll) (pollId : String) (optionId : Nat) (userId : String) :
    Except VoteError (SMap Poll) :=
  match mget polls pollId with
  | none => Except.error VoteError.pollNotFound
  | some poll =>
    if poll.status ≠ PollStatus.active then Except.error VoteError.pollNotActive
    else if poll.hasVoted userId then Except.error VoteError.alreadyVoted
    else
      match poll.options.find? (fun o => o.id == optionId) with
      | none => Except.error VoteError.invalidOption
      | some _ => Except.ok (mset polls pollId (poll.castVote optionId userId))

/-- One vote request applied to the store: a failed request leaves the
store exactly as it was (the source returns before any mutation). -/
def stepVote (polls : SMap Poll) (v : String × Nat × String) : SMap Poll :=
  match votePoll polls v.1 v.2.1 v.2.2 with
  | Except.ok polls' => polls'
  | Except.error _ => polls

/-- The poll invariant of the spec: per-option vote counts sum to
`totalVotes`, and every voter id sits in at most one option's voter set. -/
def pollInv (p : Poll) : Prop :=
  ((p.options.map PollOption.votes).sum = p.totalVotes) ∧
  ∀ u : String, p.options.countP (fun o => memberStr u o.voters) ≤ 1

/-- Every option produced by `createPoll` starts with a zero count and an
empty voter list. -/
theorem mkPollOptions_fresh (texts : List String) :
    ∀ o ∈ mkPollOptions texts, o.votes = 0 ∧ o.voters = ([] : List String) := by
  intro o ho
  simp only [mkPollOptions, List.mem_map] at ho
  obtain ⟨it, _, rfl⟩ := ho
  exact ⟨rfl, rfl⟩

theorem createPoll_inv (now : Nat) (pollId eventId question : String)
    (texts : List String) (dur : Option Nat) :
    pollInv (createPoll now pollId eventId question texts dur) := by
  constructor
  · have h : ∀ n ∈ (mkPollOptions texts).map PollOption.votes, n = 0 := by
      intro n hn
      simp only [List.mem_map] at hn
      obtain ⟨o, ho, rfl⟩ := hn
      exact (mkPollOptions_fresh texts o ho).1
    simpa [createPoll] using List.sum_eq_zero h
  · intro u
    have h : (mkPollOptions texts).countP (fun o => memberStr u o.voters) = 0 := by
      rw [List.countP_eq_zero]
      intro o ho
      rw [(mkPollOptions_fresh texts o ho).2]
      simp [memberStr]
    simp [createPoll, h]

theorem sum_votes_updateFirst (oid : Nat) (uid : String) (l : List PollOption)
    (h : l.any (fun o => o.id == oid) = true) :
    ((updateFirst (fun o => o.id == oid)
      (fun o => { o with votes := o.votes + 1, voters := o.voters ++ [uid] }) l).map
        PollOption.votes).sum
      = (l.map PollOption.votes).sum + 1 := by
  induction l with
  | nil => simp at h
  | cons x xs ih =>
    by_cases hx : (x.id == oid) = true
    · simp [updateFirst, hx]
      omega
    · have h' : xs.any (fun o => o.id == oid) = true := by
        rcases List.any_eq_true.mp h with ⟨o, ho, hoid⟩
        rcases List.mem_cons.mp ho with ho | ho
        · subst ho; exact absurd hoid hx
        · exact List.any_eq_true.mpr ⟨o, ho, hoid⟩
      simp [updateFirst, hx, ih h']
      omega

theorem castVote_inv (p : Poll) (oid : Nat) (uid : String)
    (hinv : pollInv p) (hnv : p.hasVoted uid = false)
    (hfind : p.options.any (fun o => o.id == oid) = true) :
    pollInv (p.castVote oid uid) := by
  obtain ⟨hsum, hcount⟩ := hinv
  have hopt : (p.castVote oid uid).options = updateFirst (fun o => o.id == oid)
      (fun o => { o with votes := o.votes + 1, voters := o.voters ++ [uid] }) p.options := rfl
  have htot : (p.castVote oid uid).totalVotes = p.totalVotes + 1 := rfl
  constructor
  · rw [hopt, htot, sum_votes_updateFirst oid uid p.options hfind, hsum]
  · intro u
    by_cases hu : u = uid
    · rw [hu]
      have h0 : p.options.countP (fun o => memberStr uid o.voters) = 0 := by
        rw [List.countP_eq_zero]
        intro o ho
        have := List.any_eq_false.mp hnv o ho
        simpa using this
      calc (p.castVote oid uid).options.countP (fun o => memberStr uid o.voters)
          ≤ p.options.countP (fun o => memberStr uid o.voters) + 1 := by
            rw [hopt]
            exact countP_updateFirst_le _ _ _ _
        _ = 1 := by rw [h0]
    · have hpres : ∀ o : PollOption,
          memberStr u (o.voters ++ [uid]) = memberStr u o.voters := by
        intro o
        rw [memberStr_append, memberStr_singleton_ne u uid (Ne.symm hu), Bool.or_false]
      rw [hopt, countP_updateFirst_of_pres (fun o => memberStr u o.voters) _ _ _
        (fun x => hpres x)]
      exact hcount u

/-- The store-wide invariant: every poll reachable by lookup satisfies the
vote-conservation invariant. -/
def storeInv (polls : SMap Poll) : Prop :=
  ∀ pid p, mget polls pid = some p → pollInv p

theorem storeInv_mset (polls : SMap Poll) (k : String) (p : Poll)
    (h : storeInv polls) (hp : pollInv p) : storeInv (mset polls k p) := by
  intro pid q hq
  by_cases hk : pid = k
  · subst hk
    rw [mget_mset_self] at hq
    cases hq
    exact hp
  · rw [mget_mset_ne _ _ _ _ hk] at hq
    exact h pid q hq

theorem votePoll_ok_shape (polls : SMap Poll) (pid : String) (oid : Nat) (uid : String)
    (polls' : SMap Poll) (h : votePoll polls pid oid uid = Except.ok polls') :
    ∃ poll, mget polls pid = some poll ∧ poll.status = PollStatus.active ∧
      poll.hasVoted uid = false ∧ poll.options.any (fun o => o.id == oid) = true ∧
      polls' = mset polls pid (poll.castVote oid uid) := by
  cases hg : mget polls pid with
  | none => simp [votePoll, hg] at h
  | some poll =>
    by_cases hs : poll.status = PollStatus.active
    · by_cases hv : poll.hasVoted uid = true
      · simp [votePoll, hg, hs, hv] at h
      · cases hf : poll.options.find? (fun o => o.id == oid) with
        | none => simp [votePoll, hg, hs, hv, hf] at h
        | some o =>
          simp [votePoll, hg, hs, hv] at h
          rw [hf] at h
          simp only [Except.ok.injEq] at h
          have hmem := List.mem_of_find?_eq_some hf
          have hpo := List.find?_some hf
          exact ⟨poll, rfl, hs, by simpa using hv,
            List.any_eq_true.mpr ⟨o, hmem, hpo⟩, h.symm⟩
    · simp [votePoll, hg, hs] at h

theorem stepVote_inv (polls : SMap Poll) (v : String × Nat × String)
    (h : storeInv polls) : storeInv (stepVote polls v) := by
  unfold stepVote
  cases hv : votePoll polls v.1 v.2.1 v.2.2 with
  | error e => exact h
  | ok polls' =>
    obtain ⟨poll, hg, hs, hnv, hany, rfl⟩ := votePoll_ok_shape _ _ _ _ _ hv
    exact storeInv_mset _ _ _ h (castVote_inv poll _ _ (h _ _ hg) hnv hany)

theorem foldVotes_inv (votes : List (String × Nat × String)) (polls : SMap Poll)
    (h : storeInv polls) : storeInv (votes.foldl stepVote polls) := by
  induction votes generalizing polls with
  | nil => exact h
  | cons v vs ih => exact ih _ (stepVote_inv _ _ h)

/-- C1: poll creation establishes the conservation invariant (all option
counts zero, empty voter lists, `totalVotes = 0`) and any sequence of
vote operations preserves it: option counts sum to `totalVotes` and each
voter id appears in at most one option's voter set, for every poll in the
store. -/
theorem pollVoteConservation (polls : SMap Poll) (hstore : storeInv polls)
    (now : Nat) (pollId eventId question : String) (texts : List String)
    (dur : Option Nat) (votes : List (String × Nat × String)) :
    (∀ o ∈ (createPoll now pollId eventId question texts dur).options,
        o.votes = 0 ∧ o.voters = ([] : List String))
  ∧ (createPoll now pollId eventId question texts dur).totalVotes = 0
  ∧ storeInv (votes.foldl stepVote
      (mset polls pollId (createPoll now pollId eventId question texts dur))) := by
  refine ⟨mkPollOptions_fresh texts, rfl, ?_⟩
  exact foldVotes_inv votes _
    (storeInv_mset _ _ _ hstore (createPoll_inv now pollId eventId question texts dur))

theorem pollVoteConservation_witness :
    storeInv ([] : SMap Poll) ∧
    storeInv ([("POLL-1", 0, "u1"), ("POLL-1", 1, "u2"), ("POLL-1", 0, "u1")].foldl stepVote
      (mset [] "POLL-1" (createPoll 5 "POLL-1" "EVENT-1" "q" ["yes", "no"] none))) := by
  have h0 : storeInv ([] : SMap Poll) := by
    intro pid p h
    simp [mget] at h
  exact ⟨h0, (pollVoteConservation [] h0 5 "POLL-1" "EVENT-1" "q" ["yes", "no"] none
    [("POLL-1", 0, "u1"), ("POLL-1", 1, "u2"), ("POLL-1", 0, "u1")]).2.2⟩

/-- C2: `votePoll` fails with `pollNotFound` exactly when the poll id is
absent; given the poll, with `pollNotActive` exactly when its status is
not active; given an active poll, with `alreadyVoted` exactly when the
subject already sits in some option's voter set (whatever option is now
chosen); given no prior vote, with `invalidOption` exactly when no option
carries the requested id; and every failure leaves the store unchanged. -/
theorem votePollErrorCases (polls : SMap Poll) (pollId : String) (optionId : Nat)
    (userId : String) :
    (votePoll polls pollId optionId userId = Except.error VoteError.pollNotFound
      ↔ mget polls pollId = none)
  ∧ (∀ poll, mget polls pollId = some poll →
      ((votePoll polls pollId optionId userId = Except.error VoteError.pollNotActive
          ↔ poll.status ≠ PollStatus.active)
       ∧ (poll.status = PollStatus.active →
           ((votePoll polls pollId optionId userId = Except.error VoteError.alreadyVoted
               ↔ poll.hasVoted userId = true)
            ∧ (poll.hasVoted userId = false →
                (votePoll polls pollId optionId userId = Except.error VoteError.invalidOption
                  ↔ ∀ o ∈ poll.options, o.id ≠ optionId))))))
  ∧ (∀ e, votePoll polls pollId optionId userId = Except.error e →
      stepVote polls (pollId, optionId, userId) = polls) := by
  refine ⟨?_, ?_, ?_⟩
  · cases hg : mget polls pollId with
    | none => simp [votePoll, hg]
    | some poll =>
      by_cases hs : poll.status = PollStatus.active
      · by_cases hv : poll.hasVoted userId = true
        · simp [votePoll, hg, hs, hv]
        · cases hf : poll.options.find? (fun o => o.id == optionId) with
          | none => simp [votePoll, hg, hs, hv, hf]
          | some o => simp [votePoll, hg, hs, hv, hf]
      · simp [votePoll, hg, hs]
  · intro poll hg
    have hfind : (poll.options.find? (fun o => o.id == optionId) = none)
        ↔ ∀ o ∈ poll.options, o.id ≠ optionId := by
      rw [List.find?_eq_none]
      simp
    by_cases hs : poll.status = PollStatus.active
    · have hne : votePoll polls pollId optionId userId
          ≠ Except.error VoteError.pollNotActive := by
        by_cases hv : poll.hasVoted userId = true
        · simp [votePoll, hg, hs, hv]
        · cases hf : poll.options.find? (fun o => o.id == optionId) with
          | none => simp [votePoll, hg, hs, hv, hf]
          | some o => simp [votePoll, hg, hs, hv, hf]
      refine ⟨⟨fun h => absurd h hne, fun h => absurd hs h⟩, fun _ => ?_⟩
      by_cases hv : poll.hasVoted userId = true
      · refine ⟨⟨fun _ => hv, fun _ => by simp [votePoll, hg, hs, hv]⟩, fun hv' => ?_⟩
        rw [hv'] at hv
        simp at hv
      · have hnav : votePoll polls pollId optionId userId
            ≠ Except.error VoteError.alreadyVoted := by
          cases hf : poll.options.find? (fun o => o.id == optionId) with
          | none => simp [votePoll, hg, hs, hv, hf]
          | some o => simp [votePoll, hg, hs, hv, hf]
        refine ⟨⟨fun h => absurd h hnav, fun h => absurd h (by simpa using hv)⟩,
          fun _ => ?_⟩
        rw [← hfind]
        cases hf : poll.options.find? (fun o => o.id == optionId) with
        | none => simp [votePoll, hg, hs, hv, hf]
        | some o => simp [votePoll, hg, hs, hv, hf]
    · exact ⟨⟨fun _ => hs, fun _ => by simp [votePoll, hg, hs]⟩,
        fun hs' => absurd hs' hs⟩
  · intro e he
    simp [stepVote, he]

theorem votePollErrorCases_witness :
    mget [("POLL-9",
      createPoll 0 "POLL-9" "EVENT-9" "q" ["yes", "no"] (some 30))] "POLL-9"
        = some (createPoll 0 "POLL-9" "EVENT-9" "q" ["yes", "no"] (some 30))
  ∧ (votePoll [("POLL-9", createPoll 0 "POLL-9" "EVENT-9" "q" ["yes", "no"] (some 30))]
        "POLL-9" 7 "u1" = Except.error VoteError.invalidOption
      ↔ ∀ o ∈ (createPoll 0 "POLL-9" "EVENT-9" "q" ["yes", "no"] (some 30)).options,
          o.id ≠ 7) := by
  have hg : mget [("POLL-9",
      createPoll 0 "POLL-9" "EVENT-9" "q" ["yes", "no"] (some 30))] "POLL-9"
        = some (createPoll 0 "POLL-9" "EVENT-9" "q" ["yes", "no"] (some 30)) := by
    simp [mget]
  refine ⟨hg, ?_⟩
  have h := (votePollErrorCases
    [("POLL-9", createPoll 0 "POLL-9" "EVENT-9" "q" ["yes", "no"] (some 30))]
    "POLL-9" 7 "u1").2.1 _ hg
  exact ((h.2 (by decide)).2 (by decide))

/-- The `setTimeout` body armed by `createPoll`: if the poll still exists
and is still active, mark it closed; otherwise do nothing. -/
def closeIfActive (polls : SMap Poll) (pollId : String) : SMap Poll :=
  match mget polls pollId with
  | some p =>
    if p.status = PollStatus.active
      then mset polls pollId { p with status := PollStatus.closed }
      else polls
  | none => polls

/-- World of the REST poll engine: current time in seconds, the
`eventPolls` store, and the timers armed by `setTimeout` as pairs of poll
id and absolute fire time. -/
structure PollWorld where
  now : Nat
  polls : SMap Poll
  timers : List (String × Nat)
deriving Repr

/-- Inbound events of the poll engine: poll creation, a timer firing,
a vote request, and the passing of time. -/
inductive PEvent
  | createEv (pollId eventId question : String) (texts : List String) (dur : Option Nat)
  | fireEv (pollId : String)
  | voteEv (pollId : String) (optionId : Nat) (userId : String)
  | tickEv (d : Nat)

/-- One serialized step of the poll engine: `createEv` runs `createPoll`
and arms a timer at `now + (duration || 60)`; `fireEv` runs the timer
body; `voteEv` runs `votePoll` (failures leave the store unchanged);
`tickEv` only advances the clock. -/
def pstep (w : PollWorld) : PEvent → PollWorld
  | PEvent.createEv pid eid q texts dur =>
    { w with
      polls := mset w.polls pid (createPoll w.now pid eid q texts dur)
      timers := w.timers ++ [(pid, w.now + effDuration dur)] }
  | PEvent.fireEv pid => { w with polls := closeIfActive w.polls pid }
  | PEvent.voteEv pid oid uid => { w with polls := stepVote w.polls (pid, oid, uid) }
  | PEvent.tickEv d => { w with now := w.now + d }

/-- True unless the event creates a fresh poll under the given id (poll
ids are fresh timestamps in the source; reusing one would store a new
poll object under the old key). -/
def noRecreate (pid : String) : PEvent → Bool
  | PEvent.createEv pid' _ _ _ _ => pid' != pid
  | _ => true

/-- The poll under this id exists and is closed. -/
def closedIn (polls : SMap Poll) (pid : String) : Prop :=
  ∃ p, mget polls pid = some p ∧ p.status = PollStatus.closed

theorem mget_closeIfActive_ne (polls : SMap Poll) (pid pid' : String) (h : pid' ≠ pid) :
    mget (closeIfActive polls pid) pid' = mget polls pid' := by
  unfold closeIfActive
  cases hg : mget polls pid with
  | none => rfl
  | some p =>
    by_cases hs : p.status = PollStatus.active
    · simp [hs, mget_mset_ne _ _ _ _ h]
    · simp [hs]

theorem closeIfActive_of_closed (polls : SMap Poll) (pid : String) (p : Poll)
    (hg : mget polls pid = some p) (hc : p.status = PollStatus.closed) :
    closeIfActive polls pid = polls := by
  unfold closeIfActive
  rw [hg]
  simp [hc]

theorem votePoll_of_closed (polls : SMap Poll) (pid : String) (oid : Nat) (uid : String)
    (p : Poll) (hg : mget polls pid = some p) (hc : p.status = PollStatus.closed) :
    votePoll polls pid oid uid = Except.error VoteError.pollNotActive := by
  simp [votePoll, hg, hc]

theorem stepVote_of_closed (polls : SMap Poll) (pid : String) (oid : Nat) (uid : String)
    (p : Poll) (hg : mget polls pid = some p) (hc : p.status = PollStatus.closed) :
    stepVote polls (pid, oid, uid) = polls := by
  unfold stepVote
  rw [show votePoll polls (pid, oid, uid).1 (pid, oid, uid).2.1 (pid, oid, uid).2.2
      = Except.error VoteError.pollNotActive from votePoll_of_closed polls pid oid uid p hg hc]

theorem mget_stepVote_ne (polls : SMap Poll) (v : String × Nat × String) (pid : String)
    (h : pid ≠ v.1) : mget (stepVote polls v) pid = mget polls pid := by
  unfold stepVote
  cases hv : votePoll polls v.1 v.2.1 v.2.2 with
  | error e => rfl
  | ok polls' =>
    obtain ⟨poll, hg, _, _, _, rfl⟩ := votePoll_ok_shape _ _ _ _ _ hv
    exact mget_mset_ne _ _ _ _ h

theorem closed_pstep (w : PollWorld) (e : PEvent) (pid : String)
    (hnc : noRecreate pid e = true) (h : closedIn w.polls pid) :
    closedIn (pstep w e).polls pid := by
  obtain ⟨p, hg, hc⟩ := h
  cases e with
  | createEv pid' eid q texts dur =>
    have hne : pid ≠ pid' := by
      intro hcontr
      subst hcontr
      simp [noRecreate] at hnc
    exact ⟨p, by rw [pstep, mget_mset_ne _ _ _ _ hne]; exact hg, hc⟩
  | fireEv pid' =>
    by_cases hpp : pid' = pid
    · subst hpp
      exact ⟨p, by rw [pstep, closeIfActive_of_closed _ _ _ hg hc]; exact hg, hc⟩
    · exact ⟨p, by rw [pstep, mget_closeIfActive_ne _ _ _ (fun hx => hpp hx.symm)]; exact hg, hc⟩
  | voteEv pid' oid uid =>
    by_cases hpp : pid' = pid
    · subst hpp
      exact ⟨p, by rw [pstep, stepVote_of_closed _ _ _ _ _ hg hc]; exact hg, hc⟩
    · exact ⟨p, by rw [pstep, mget_stepVote_ne _ _ _ (fun hx => hpp hx.symm)]; exact hg, hc⟩
  | tickEv d => exact ⟨p, hg, hc⟩

theorem closed_trace (es : List PEvent) (w : PollWorld) (pid : String)
    (hnc : ∀ e ∈ es, noRecreate pid e = true) (h : closedIn w.polls pid) :
    closedIn (es.foldl pstep w).polls pid := by
  induction es generalizing w with
  | nil => exact h
  | cons e es ih =>
    exact ih (pstep w e) (fun e' he' => hnc e' (List.mem_cons_of_mem _ he'))
      (closed_pstep w e pid (hnc e (List.mem_cons_self _ _)) h)

/-- A poll object created by the `event-start-poll` socket handler: the
client payload is spread and given a fresh id, `status: 'active'` and an
empty `votes` record mapping subject id to chosen option id. -/
structure SPoll where
  id : String
  eventId : String
  duration : Option Nat
  status : PollStatus
  votes : SMap Nat
deriving DecidableEq, Repr

/-- `event-start-poll`: store the poll in `eventPolls` and arm its
auto-close timer at `now + (duration || 60)` seconds. -/
def eventStartPoll (now : Nat) (pollId eventId : String) (dur : Option Nat)
    (polls : SMap SPoll) (timers : List (String × Nat)) :
    SMap SPoll × List (String × Nat) :=
  (mset polls pollId
    { id := pollId
      eventId := eventId
      duration := dur
      status := PollStatus.active
      votes := [] },
   timers ++ [(pollId, now + effDuration dur)])

/-- The timer body armed by `event-start-poll`: close the poll if it
still exists and is still active. -/
def sCloseIfActive (polls : SMap SPoll) (pollId : String) : SMap SPoll :=
  match mget polls pollId with
  | some p =>
    if p.status = PollStatus.active
      then mset polls pollId { p with status := PollStatus.closed }
      else polls
  | none => polls

/-- The `event-vote-poll` socket handler: record `votes[userId] =
optionId` only when the poll exists, is active, and `!poll.votes[userId]`
is true (an absent or zero-valued prior choice is falsy). -/
def eventVotePoll (polls : SMap SPoll) (pollId : String) (optionId : Nat)
    (userId : String) : SMap SPoll :=
  match mget polls pollId with
  | none => polls
  | some p =>
    if p.status = PollStatus.active then
      if jsFalsyNat (mget p.votes userId) then
        mset polls pollId { p with votes := mset p.votes userId optionId }
      else polls
    else polls

/-- C3: poll creation (both the REST `createPoll` and the socket
`event-start-poll`) arms an auto-close task at creation time plus the
poll's duration; a firing task closes a still-existing, still-active
poll; along any run that does not reuse the poll id a closed poll stays
closed (so the active-to-closed transition happens at most once and the
poll is never reopened); and no vote on a closed poll ever succeeds on
either vote path. -/
theorem pollLifecycleClosure (w : PollWorld) (pid eid q : String) (texts : List String)
    (dur : Option Nat) :
    ((pid, w.now + effDuration dur) ∈ (pstep w (PEvent.createEv pid eid q texts dur)).timers
      ∧ ∃ p, mget (pstep w (PEvent.createEv pid eid q texts dur)).polls pid = some p
          ∧ p.createdAt = w.now ∧ p.duration = effDuration dur
          ∧ p.expiresAt = p.createdAt + p.duration ∧ p.status = PollStatus.active)
  ∧ (∀ polls p, mget polls pid = some p → p.status = PollStatus.active →
      mget (closeIfActive polls pid) pid = some { p with status := PollStatus.closed })
  ∧ (∀ (es : List PEvent) (w' : PollWorld), (∀ e ∈ es, noRecreate pid e = true) →
      closedIn w'.polls pid → closedIn (es.foldl pstep w').polls pid)
  ∧ (∀ polls (p : Poll) oid uid, mget polls pid = some p → p.status = PollStatus.closed →
      votePoll polls pid oid uid = Except.error VoteError.pollNotActive
        ∧ stepVote polls (pid, oid, uid) = polls)
  ∧ (∀ now polls timers,
      (pid, now + effDuration dur) ∈ (eventStartPoll now pid eid dur polls timers).2
        ∧ mget (eventStartPoll now pid eid dur polls timers).1 pid
            = some { id := pid, eventId := eid, duration := dur,
                     status := PollStatus.active, votes := [] })
  ∧ (∀ polls (p : SPoll), mget polls pid = some p → p.status = PollStatus.active →
      mget (sCloseIfActive polls pid) pid = some { p with status := PollStatus.closed })
  ∧ (∀ polls (p : SPoll) oid uid, mget polls pid = some p → p.status = PollStatus.closed →
      eventVotePoll polls pid oid uid = polls ∧ sCloseIfActive polls pid = polls) := by
  refine ⟨⟨?_, ?_⟩, ?_, ?_, ?_, ?_, ?_, ?_⟩
  · simp [pstep]
  · exact ⟨createPoll w.now pid eid q texts dur, by simp [pstep, mget_mset_self],
      rfl, rfl, rfl, rfl⟩
  · intro polls p hg hs
    unfold closeIfActive
    rw [hg]
    simp [hs, mget_mset_self]
  · exact fun es w' hnc h => closed_trace es w' pid hnc h
  · intro polls p oid uid hg hc
    exact ⟨votePoll_of_closed polls pid oid uid p hg hc,
      stepVote_of_closed polls pid oid uid p hg hc⟩
  · intro now polls timers
    exact ⟨by simp [eventStartPoll], by simp [eventStartPoll, mget_mset_self]⟩
  · intro polls p hg hs
    unfold sCloseIfActive
    rw [hg]
    simp [hs, mget_mset_self]
  · intro polls p oid uid hg hc
    constructor
    · unfold eventVotePoll
      rw [hg]
      simp [hc]
    · unfold sCloseIfActive
      rw [hg]
      simp [hc]

theorem pollLifecycleClosure_witness :
    (∀ e ∈ [PEvent.fireEv "POLL-3", PEvent.voteEv "POLL-3" 0 "u1", PEvent.tickEv 10,
        PEvent.createEv "POLL-4" "EVENT-3" "q2" ["a"] none],
      noRecreate "POLL-3" e = true)
  ∧ closedIn [("POLL-3",
      { createPoll 0 "POLL-3" "EVENT-3" "q" ["a", "b"] (some 30) with
          status := PollStatus.closed })] "POLL-3"
  ∧ closedIn (([PEvent.fireEv "POLL-3", PEvent.voteEv "POLL-3" 0 "u1", PEvent.tickEv 10,
        PEvent.createEv "POLL-4" "EVENT-3" "q2" ["a"] none].foldl pstep
      { now := 0
        polls := [("POLL-3",
          { createPoll 0 "POLL-3" "EVENT-3" "q" ["a", "b"] (some 30) with
              status := PollStatus.closed })]
        timers := [] }).polls) "POLL-3" := by
  have hnc : ∀ e ∈ [PEvent.fireEv "POLL-3", PEvent.voteEv "POLL-3" 0 "u1",
      PEvent.tickEv 10, PEvent.createEv "POLL-4" "EVENT-3" "q2" ["a"] none],
      noRecreate "POLL-3" e = true := by
    intro e he
    fin_cases he <;> simp [noRecreate]
  have hclosed : closedIn [("POLL-3",
      { createPoll 0 "POLL-3" "EVENT-3" "q" ["a", "b"] (some 30) with
          status := PollStatus.closed })] "POLL-3" := by
    exact ⟨{ createPoll 0 "POLL-3" "EVENT-3" "q" ["a", "b"] (some 30) with
        status := PollStatus.closed }, by simp [mget], rfl⟩
  exact ⟨hnc, hclosed,
    (pollLifecycleClosure { now := 0, polls := [], timers := [] } "POLL-3" "EVENT-3" "q"
      ["a", "b"] (some 30)).2.2.1 _ _ hnc hclosed⟩

/-- Character-list version of the JavaScript `startsWith` test. -/
def listStarts : List Char -> List Char -> Bool
  | _, [] => true
  | [], _ :: _ => false
  | c :: cs, d :: ds => if c == d then listStarts cs ds else false

/-- `s.startsWith(p)` computed on the underlying character lists. -/
def strStarts (s p : String) : Bool :=
  listStarts s.data p.data

/-- A teaching-room member as stored in `session.students` by
`confirm-join`: the client profile (`id`, `name`) spread together with
the live connection id. -/
structure Student where
  id : String
  name : String
  socketId : String
deriving DecidableEq, Repr

/-- A teaching session as stored in `teachingSessions` by `create-room`.
`hostActive` is absent (`none`) on a fresh room and set to `some false`
when the host disconnects. -/
structure TeachingSession where
  host : String
  hostSocketId : String
  students : List Student
  messages : List String
  notes : List String
  attendance : List String
  feedback : List String
  hostActive : Option Bool
deriving DecidableEq, Repr

/-- The fresh `roomData` object of the teaching branch of `create-room`. -/
def freshTeachingSession (host hostSocketId : String) : TeachingSession :=
  { host := host
    hostSocketId := hostSocketId
    students := []
    messages := []
    notes := []
    attendance := []
    feedback := []
    hostActive := none }

/-- A gaming-room participant as built by the gaming branch of
`join-room-old` (avatar is taken verbatim from the client and may be
absent). -/
structure Participant where
  id : String
  name : String
  avatar : Option String
  socketId : String
  audio : Bool
  video : Bool
  screenshare : Bool
deriving DecidableEq, Repr

/-- A gaming room as stored in `gamingRooms` by `create-room`. -/
structure GamingRoom where
  host : String
  hostSocketId : String
  participants : List Participant
  messages : List String
deriving DecidableEq, Repr

/-- `event.settings` flags. -/
structure EventSettings where
  chatEnabled : Bool
  handsEnabled : Bool
  documentsEnabled : Bool
  pollsEnabled : Bool
deriving DecidableEq, Repr

inductive EventStatus
  | created
  | active
  | ended
deriving DecidableEq, Repr

/-- An event attendee as built by the event branch of `join-room-old`. -/
structure Attendee where
  id : String
  name : String
  email : String
  avatar : String
  socketId : String
  handRaised : Bool
deriving DecidableEq, Repr

/-- An event record as stored in `events` by the REST `createEvent` and
mutated by the socket handlers. -/
structure EventRec where
  id : String
  title : String
  description : String
  hostName : String
  hostEmail : String
  hostSocketId : Option String
  attendees : List Attendee
  messages : List String
  documents : List String
  settings : EventSettings
  status : EventStatus
deriving DecidableEq, Repr

/-- A room of the WebRTC handler's own `this.rooms` store; the per-student
payload is reduced to the display name (it is opaque to every property
proved here). -/
structure WRoom where
  hostId : String
  hostName : String
  students : SMap String
deriving DecidableEq, Repr

/-- The client profile carried by join requests: persistent id, display
name, optional email and avatar. -/
structure UserProfile where
  id : String
  name : String
  email : Option String
  avatar : Option String
deriving DecidableEq, Repr

/-- The combined mutable state of the process: the three stores of
`server.js` (`teachingSessions`, `gamingRooms`, `events`), the WebRTC
handler's own `rooms` store, the socket.io adapter's room membership
(room id to member connection ids), and each socket's joined-room list
in join order (`socket.rooms` minus the socket's own id). Both
`server.js` and the WebRTC handler register listeners on every
connection, so one inbound event can run two handlers. -/
structure ServerState where
  teachingSessions : SMap TeachingSession
  gamingRooms : SMap GamingRoom
  events : SMap EventRec
  wrtcRooms : SMap WRoom
  ioRooms : SMap (List String)
  socketJoined : SMap (List String)
deriving DecidableEq, Repr

/-- `socket.join(roomId)`: idempotently add the socket to the adapter's
room and the room to the socket's joined list. -/
def socketJoin (st : ServerState) (sock roomId : String) : ServerState :=
  { st with
    ioRooms :=
      mset st.ioRooms roomId
        (if memberStr sock ((mget st.ioRooms roomId).getD [])
          then (mget st.ioRooms roomId).getD []
          else (mget st.ioRooms roomId).getD [] ++ [sock])
    socketJoined :=
      mset st.socketJoined sock
        (if memberStr roomId ((mget st.socketJoined sock).getD [])
          then (mget st.socketJoined sock).getD []
          else (mget st.socketJoined sock).getD [] ++ [roomId]) }

/-- Where an emission is addressed: one socket (`io.to(socketId)` or a
direct `socket.emit`), a whole room (`io.to(roomId)`), or a room minus
the sender (`socket.to(roomId)`). -/
inductive Target
  | toSocket (s : String)
  | toRoom (r : String)
  | toRoomExcept (r s : String)
deriving DecidableEq, Repr

/-- The outbound messages relevant to the claims, with their payloads. -/
inductive Msg
  | roomCreated (roomId : String)
  | userConnected (sock : String)
  | roomJoinedGaming (roomId hostId : String) (participants : List Participant)
  | roomNotFound (roomId : String)
  | joinRequestMsg (requester roomId : String)
  | joinPending (roomId : String)
  | joinApproved (roomId hostId : String)
  | joinRejected (roomId : String)
  | studentJoined (s : Student)
  | roomJoinedTeaching (roomId hostId : String) (students : List Student)
  | attendeeJoined (a : Attendee)
  | eventJoined (eventId title description hostName : String)
      (attendees : List Attendee) (documents : List String) (settings : EventSettings)
  | eventNotFound (roomId : String)
  | eventMessage (m : String)
  | hostDisconnected
  | userDisconnected (sock : String)
  | userLeftWebrtc (sock : String)
  | studentLeft (sid : String)
deriving DecidableEq, Repr

/-- The messages a given recipient connection receives from a batch of
emissions, resolved against the adapter's room membership. -/
def deliveredTo (ioRooms : SMap (List String)) (recipient : String)
    (es : List (Target × Msg)) : List Msg :=
  es.filterMap (fun e =>
    match e.1 with
    | Target.toSocket s => if s == recipient then some e.2 else none
    | Target.toRoom r =>
      if memberStr recipient ((mget ioRooms r).getD []) then some e.2 else none
    | Target.toRoomExcept r s =>
      if memberStr recipient ((mget ioRooms r).getD []) && s != recipient
        then some e.2 else none)

/-- True exactly on the payload-free `host-disconnected` message. -/
def isHostDisconnectedMsg : Msg → Bool
  | Msg.hostDisconnected => true
  | _ => false

/-- The WebRTC handler's `create-room` listener: it registers on every
connection, so it stores (or overwrites) a `WRoom` for any room id and
joins the host socket. -/
def wrtcCreateRoom (st : ServerState) (sock roomId host : String) :
    ServerState × List (Target × Msg) :=
  let st' := { st with
    wrtcRooms := mset st.wrtcRooms roomId
      { hostId := sock, hostName := host, students := [] } }
  (socketJoin st' sock roomId, [(Target.toSocket sock, Msg.roomCreated roomId)])

/-- The `server.js` `create-room` listener: join the socket, then branch
on the room-id prefix — reconnect or create a gaming room, activate an
existing event, or unconditionally store a fresh teaching session. -/
def serverCreateRoom (st : ServerState) (sock roomId host : String) :
    ServerState × List (Target × Msg) :=
  let st1 := socketJoin st sock roomId
  let st2 :=
    if strStarts roomId "GAME-" then
      match mget st1.gamingRooms roomId with
      | some r =>
        { st1 with gamingRooms := mset st1.gamingRooms roomId { r with hostSocketId := sock } }
      | none =>
        let fresh : GamingRoom :=
          { host := host, hostSocketId := sock, participants := [], messages := [] }
        { st1 with gamingRooms := mset st1.gamingRooms roomId fresh }
    else if strStarts roomId "EVENT-" then
      match mget st1.events roomId with
      | some e =>
        let e' := { e with hostSocketId := some sock, status := EventStatus.active }
        { st1 with events := mset st1.events roomId e' }
      | none => st1
    else
      { st1 with
        teachingSessions := mset st1.teachingSessions roomId (freshTeachingSession host sock) }
  (st2, [(Target.toSocket sock, Msg.roomCreated roomId)])

/-- One inbound `create-room` event runs both registered listeners: the
WebRTC handler's first (it was registered first), then `server.js`. -/
def createRoom (st : ServerState) (sock roomId host : String) :
    ServerState × List (Target × Msg) :=
  let r1 := wrtcCreateRoom st sock roomId host
  let r2 := serverCreateRoom r1.1 sock roomId host
  (r2.1, r1.2 ++ r2.2)

/-- The attendee object built by the event branch of `join-room-old`:
`avatar: student.avatar || student.name.charAt(0).toUpperCase()`,
`email: student.email || ''`. -/
def mkAttendee (sock : String) (student : UserProfile) : Attendee :=
  { id := sock
    name := student.name
    email := student.email.getD ""
    avatar := student.avatar.getD (student.name.take 1).toUpper
    socketId := sock
    handRaised := false }

/-- The participant object built by the gaming branch of `join-room-old`. -/
def mkParticipant (sock : String) (student : UserProfile) : Participant :=
  { id := sock
    name := student.name
    avatar := student.avatar
    socketId := sock
    audio := true
    video := true
    screenshare := false }

/-- The `join-room-old` listener: event rooms join immediately while the
event is active, gaming rooms join immediately (replacing a participant
with the same display name in place), teaching rooms only produce a join
request to the host. -/
def joinRoomOld (st : ServerState) (sock roomId : String) (student : UserProfile) :
    ServerState × List (Target × Msg) :=
  if strStarts roomId "EVENT-" then
    match mget st.events roomId with
    | some e =>
      if e.status = EventStatus.active then
        let st1 := socketJoin st sock roomId
        let attendee := mkAttendee sock student
        let e' := { e with attendees := e.attendees ++ [attendee] }
        ({ st1 with events := mset st1.events roomId e' },
         [(Target.toRoom roomId, Msg.attendeeJoined attendee),
          (Target.toSocket sock, Msg.eventJoined roomId e.title e.description e.hostName
            e'.attendees e.documents e.settings)])
      else (st, [(Target.toSocket sock, Msg.eventNotFound roomId)])
    | none => (st, [(Target.toSocket sock, Msg.eventNotFound roomId)])
  else if strStarts roomId "GAME-" then
    match mget st.gamingRooms roomId with
    | some room =>
      let st1 := socketJoin st sock roomId
      let participant := mkParticipant sock student
      let parts :=
        if room.participants.any (fun p => p.name == student.name) then
          updateFirst (fun p => p.name == student.name) (fun _ => participant)
            room.participants
        else room.participants ++ [participant]
      let room' := { room with participants := parts }
      ({ st1 with gamingRooms := mset st1.gamingRooms roomId room' },
       [(Target.toRoomExcept roomId sock, Msg.userConnected sock),
        (Target.toSocket sock, Msg.roomJoinedGaming roomId room.hostSocketId
          (parts.filter (fun p => p.id != sock)))])
    | none => (st, [(Target.toSocket sock, Msg.roomNotFound roomId)])
  else
    match mget st.teachingSessions roomId with
    | some session =>
      (st, [(Target.toSocket session.hostSocketId, Msg.joinRequestMsg sock roomId),
            (Target.toSocket sock, Msg.joinPending roomId)])
    | none => (st, [(Target.toSocket sock, Msg.roomNotFound roomId)])

/-- The `approve-join` listener: when the session exists it only notifies
the requester (carrying the host's connection id); the state is untouched. -/
def approveJoin (st : ServerState) (requestId roomId : String) :
    ServerState × List (Target × Msg) :=
  match mget st.teachingSessions roomId with
  | some session =>
    (st, [(Target.toSocket requestId, Msg.joinApproved roomId session.hostSocketId)])
  | none => (st, [])

/-- The `confirm-join` listener: if a student with the same persistent id
or the same connection id already exists, only its connection id is
rewritten; otherwise the student is appended and the room is notified. -/
def confirmJoin (st : ServerState) (sock roomId : String) (student : UserProfile) :
    ServerState × List (Target × Msg) :=
  match mget st.teachingSessions roomId with
  | none => (st, [])
  | some session =>
    if session.students.any (fun s => s.id == student.id || s.socketId == sock) then
      let students' := updateFirst (fun s => s.id == student.id || s.socketId == sock)
        (fun s => { s with socketId := sock }) session.students
      let session' := { session with students := students' }
      let st1 := { st with teachingSessions := mset st.teachingSessions roomId session' }
      (socketJoin st1 sock roomId,
       [(Target.toSocket sock,
         Msg.roomJoinedTeaching roomId session.hostSocketId students')])
    else
      let st1 := socketJoin st sock roomId
      let s' : Student := { id := student.id, name := student.name, socketId := sock }
      let students' := session.students ++ [s']
      let session' := { session with students := students' }
      ({ st1 with teachingSessions := mset st1.teachingSessions roomId session' },
       [(Target.toRoomExcept roomId sock, Msg.studentJoined s'),
        (Target.toSocket sock,
         Msg.roomJoinedTeaching roomId session.hostSocketId students')])

/-- The `event-send-message` listener: append to the log and fan out to
the room only when the event exists and `settings.chatEnabled` holds;
otherwise do nothing at all. -/
def eventSendMessage (st : ServerState) (eventId msg : String) :
    ServerState × List (Target × Msg) :=
  match mget st.events eventId with
  | some e =>
    if e.settings.chatEnabled then
      let e' := { e with messages := e.messages ++ [msg] }
      ({ st with events := mset st.events eventId e' },
       [(Target.toRoom eventId, Msg.eventMessage msg)])
    else (st, [])
  | none => (st, [])

/-- The `disconnecting` listener of `server.js`: while the socket is
still in its rooms, broadcast `user-disconnected` to `rooms[1]` — the
first room the socket joined. -/
def disconnecting (st : ServerState) (sock : String) : List (Target × Msg) :=
  match (mget st.socketJoined sock).getD [] with
  | [] => []
  | r :: _ => [(Target.toRoomExcept r sock, Msg.userDisconnected sock)]

/-- socket.io removes a closed socket from every room between the
`disconnecting` and `disconnect` listeners. -/
def socketLeaveAll (st : ServerState) (sock : String) : ServerState :=
  { st with
    ioRooms := st.ioRooms.map (fun e => (e.1, e.2.filter (fun m => m != sock)))
    socketJoined := mdel st.socketJoined sock }

/-- One room of `WebRTCHandler.handleUserDisconnect`: the room of a
disconnected host is broadcast `host-disconnected` and deleted from the
handler's store; a disconnected student is removed and announced. -/
def wrtcDisconnectRoom (sock : String) (acc : SMap WRoom × List (Target × Msg))
    (entry : String × WRoom) : SMap WRoom × List (Target × Msg) :=
  if entry.2.hostId == sock then
    (mdel acc.1 entry.1, acc.2 ++ [(Target.toRoom entry.1, Msg.hostDisconnected)])
  else if (mget entry.2.students sock).isSome then
    (mset acc.1 entry.1 { entry.2 with students := mdel entry.2.students sock },
     acc.2 ++ [(Target.toRoom entry.1, Msg.userLeftWebrtc sock),
               (Target.toSocket entry.2.hostId, Msg.studentLeft sock)])
  else acc

/-- `WebRTCHandler.handleUserDisconnect`: walk every room of the
handler's store. -/
def wrtcHandleUserDisconnect (st : ServerState) (sock : String) :
    ServerState × List (Target × Msg) :=
  let r := st.wrtcRooms.foldl (wrtcDisconnectRoom sock) (st.wrtcRooms, [])
  ({ st with wrtcRooms := r.1 }, r.2)

/-- One session of the student-removal loop of the `server.js`
`disconnect` listener. -/
def teachingStudentLeave (sock : String)
    (acc : SMap TeachingSession × List (Target × Msg))
    (entry : String × TeachingSession) : SMap TeachingSession × List (Target × Msg) :=
  match entry.2.students.find? (fun s => s.socketId == sock) with
  | some stu =>
    (mset acc.1 entry.1
      { entry.2 with students := removeFirst (fun s => s.socketId == sock) entry.2.students },
     acc.2 ++ [(Target.toRoomExcept entry.1 sock, Msg.studentLeft stu.id)])
  | none => acc

/-- The `server.js` `disconnect` listener: if some teaching session has
this socket as host, only flip that session's `hostActive` to false (no
emission); otherwise remove the socket from every session's student list
and announce each removal. Gaming rooms and events are never touched. -/
def serverDisconnect (st : ServerState) (sock : String) :
    ServerState × List (Target × Msg) :=
  let hostRoomId := st.teachingSessions.foldl
    (fun acc e => if e.2.hostSocketId == sock then some e.1 else acc) none
  match hostRoomId with
  | some rid =>
    match mget st.teachingSessions rid with
    | some session =>
      let session' := { session with hostActive := some false }
      ({ st with teachingSessions := mset st.teachingSessions rid session' }, [])
    | none => (st, [])
  | none =>
    let r := st.teachingSessions.foldl (teachingStudentLeave sock)
      (st.teachingSessions, [])
    ({ st with teachingSessions := r.1 }, r.2)

/-- A connection loss runs, in order: the `disconnecting` broadcast (the
socket still in its rooms), the adapter removing the socket from every
room, the WebRTC handler's `disconnect` listener, and the `server.js`
`disconnect` listener. -/
def handleDisconnect (st : ServerState) (sock : String) :
    ServerState × List (Target × Msg) :=
  let e1 := disconnecting st sock
  let st1 := socketLeaveAll st sock
  let r2 := wrtcHandleUserDisconnect st1 sock
  let r3 := serverDisconnect r2.1 sock
  (r3.1, e1 ++ r2.2 ++ r3.2)

/-- C10: a `create-room` request whose room id is neither gaming- nor
event-prefixed unconditionally overwrites the teaching-session entry for
that id with a fresh session — empty students, messages, notes,
attendance and feedback, host set to the caller — discarding any prior
room state stored under the same id. -/
theorem teachingCreateRoomOverwrites (st : ServerState) (sock roomId host : String)
    (hg : strStarts roomId "GAME-" = false) (he : strStarts roomId "EVENT-" = false) :
    mget (createRoom st sock roomId host).1.teachingSessions roomId
      = some (freshTeachingSession host sock)
  ∧ (freshTeachingSession host sock).students = []
  ∧ (freshTeachingSession host sock).messages = []
  ∧ (freshTeachingSession host sock).notes = []
  ∧ (freshTeachingSession host sock).attendance = []
  ∧ (freshTeachingSession host sock).feedback = []
  ∧ (freshTeachingSession host sock).host = host
  ∧ (freshTeachingSession host sock).hostSocketId = sock := by
  refine ⟨?_, rfl, rfl, rfl, rfl, rfl, rfl, rfl⟩
  simp [createRoom, wrtcCreateRoom, serverCreateRoom, socketJoin, hg, he, mget_mset_self]

theorem teachingCreateRoomOverwrites_witness :
    (strStarts "T1" "GAME-" = false) ∧ (strStarts "T1" "EVENT-" = false) ∧
    mget (createRoom
      { teachingSessions := [("T1",
          { freshTeachingSession "Olga" "old-sock" with
              students := [{ id := "stu-1", name := "Sam", socketId := "s9" }] })]
        gamingRooms := [], events := [], wrtcRooms := [], ioRooms := [], socketJoined := [] }
      "h2" "T1" "Hank").1.teachingSessions "T1" = some (freshTeachingSession "Hank" "h2") := by
  refine ⟨by decide, by decide, ?_⟩
  exact (teachingCreateRoomOverwrites
    { teachingSessions := [("T1",
        { freshTeachingSession "Olga" "old-sock" with
            students := [{ id := "stu-1", name := "Sam", socketId := "s9" }] })]
      gamingRooms := [], events := [], wrtcRooms := [], ioRooms := [], socketJoined := [] }
    "h2" "T1" "Hank" (by decide) (by decide)).1

/-- C9: a chat message sent to an existing event room is appended to the
room's message log and fanned out to the room exactly when
`settings.chatEnabled` is true; with the flag off the handler changes
nothing and emits nothing — no error reaches the sender. -/
theorem eventChatEnabledGate (st : ServerState) (eventId msg : String) (e : EventRec)
    (he : mget st.events eventId = some e) :
    (e.settings.chatEnabled = true →
      mget (eventSendMessage st eventId msg).1.events eventId
          = some { e with messages := e.messages ++ [msg] }
        ∧ (eventSendMessage st eventId msg).2
          = [(Target.toRoom eventId, Msg.eventMessage msg)])
  ∧ (e.settings.chatEnabled = false →
      (eventSendMessage st eventId msg).1 = st ∧ (eventSendMessage st eventId msg).2 = []) := by
  constructor
  · intro hc
    constructor
    · simp [eventSendMessage, he, hc, mget_mset_self]
    · simp [eventSendMessage, he, hc]
  · intro hc
    constructor <;> simp [eventSendMessage, he, hc]

/-- The event record used by witnesses of the event-room claims. -/
def demoEvent : EventRec :=
  { id := "EVENT-1"
    title := "Launch"
    description := "d"
    hostName := "Hana"
    hostEmail := "h@x"
    hostSocketId := some "hs"
    attendees := []
    messages := ["m0"]
    documents := ["doc1"]
    settings := { chatEnabled := true, handsEnabled := true,
                  documentsEnabled := true, pollsEnabled := true }
    status := EventStatus.active }

theorem eventChatEnabledGate_witness :
    mget [("EVENT-1", demoEvent)] "EVENT-1" = some demoEvent
  ∧ demoEvent.settings.chatEnabled = true
  ∧ mget (eventSendMessage
      { teachingSessions := [], gamingRooms := [], events := [("EVENT-1", demoEvent)],
        wrtcRooms := [], ioRooms := [], socketJoined := [] } "EVENT-1" "hello").1.events
      "EVENT-1" = some { demoEvent with messages := demoEvent.messages ++ ["hello"] } := by
  refine ⟨by decide, rfl, ?_⟩
  exact ((eventChatEnabledGate
    { teachingSessions := [], gamingRooms := [], events := [("EVENT-1", demoEvent)],
      wrtcRooms := [], ioRooms := [], socketJoined := [] }
    "EVENT-1" "hello" demoEvent (by decide)).1 rfl).1


/-- C5: approving a teaching-room join request only notifies the
requester (carrying the host's connection id) and leaves the member list
untouched; the member is appended only by `confirm-join`; and
`confirm-join` is idempotent: when a student with the same persistent id
(or the same connection id) already exists, only that student's
connection id is rewritten, so no duplicate entry appears and the count
for that identity is unchanged. -/
theorem teachingApproveConfirmJoin (st : ServerState) (roomId requestId sock : String)
    (student : UserProfile) (session : TeachingSession)
    (hs : mget st.teachingSessions roomId = some session) :
    ((approveJoin st requestId roomId).1 = st
      ∧ (approveJoin st requestId roomId).2
        = [(Target.toSocket requestId, Msg.joinApproved roomId session.hostSocketId)])
  ∧ (session.students.any (fun s => s.id == student.id || s.socketId == sock) = false →
      ∃ session', mget (confirmJoin st sock roomId student).1.teachingSessions roomId
          = some session'
        ∧ session'.students = session.students
            ++ [{ id := student.id, name := student.name, socketId := sock }]
        ∧ session'.students.countP (fun s => s.id == student.id)
            = session.students.countP (fun s => s.id == student.id) + 1)
  ∧ (session.students.any (fun s => s.id == student.id || s.socketId == sock) = true →
      ∃ session', mget (confirmJoin st sock roomId student).1.teachingSessions roomId
          = some session'
        ∧ session'.students = updateFirst
            (fun s => s.id == student.id || s.socketId == sock)
            (fun s => { s with socketId := sock }) session.students
        ∧ session'.students.length = session.students.length
        ∧ session'.students.countP (fun s => s.id == student.id)
            = session.students.countP (fun s => s.id == student.id)) := by
  refine ⟨⟨by simp [approveJoin, hs], by simp [approveJoin, hs]⟩, ?_, ?_⟩
  · intro hany
    refine ⟨{ session with students := session.students ++ [{ id := student.id, name := student.name, socketId := sock }] }, ?_, rfl, ?_⟩
    · simp [confirmJoin, hs, hany, socketJoin, mget_mset_self]
    · simp [List.countP_append, List.countP_cons]
  · intro hany
    refine ⟨{ session with students := updateFirst (fun s => s.id == student.id || s.socketId == sock) (fun s => { s with socketId := sock }) session.students }, ?_, rfl, ?_, ?_⟩
    · simp [confirmJoin, hs, hany, socketJoin, mget_mset_self]
    · exact updateFirst_length _ _ _
    · exact countP_updateFirst_of_pres _ _ _ _ (fun x => rfl)

/-- The teaching session used by witnesses of the teaching-room claims. -/
def demoSession : TeachingSession :=
  { freshTeachingSession "Tina" "th" with students := [{ id := "stu-1", name := "Sam", socketId := "old" }] }

theorem teachingApproveConfirmJoin_witness :
    mget [("T1", demoSession)] "T1" = some demoSession
  ∧ demoSession.students.any (fun s => s.id == "stu-1" || s.socketId == "s2") = true
  ∧ ∃ session', mget (confirmJoin
      { teachingSessions := [("T1", demoSession)], gamingRooms := [], events := [],
        wrtcRooms := [], ioRooms := [], socketJoined := [] } "s2" "T1"
      { id := "stu-1", name := "Sam", email := none, avatar := none }).1.teachingSessions
        "T1" = some session'
      ∧ session'.students = updateFirst
          (fun s => s.id == ("stu-1" : String) || s.socketId == ("s2" : String))
          (fun s => { s with socketId := "s2" }) demoSession.students
      ∧ session'.students.length = demoSession.students.length
      ∧ session'.students.countP (fun s => s.id == ("stu-1" : String))
          = demoSession.students.countP (fun s => s.id == ("stu-1" : String)) := by
  refine ⟨by decide, by decide, ?_⟩
  exact (teachingApproveConfirmJoin
    { teachingSessions := [("T1", demoSession)], gamingRooms := [], events := [],
      wrtcRooms := [], ioRooms := [], socketJoined := [] } "T1" "rq" "s2"
    { id := "stu-1", name := "Sam", email := none, avatar := none } demoSession
    (by decide)).2.2 (by decide)

/-- C6: joining an existing gaming room replaces a participant with the
same display name in place (list length and the count for that name are
preserved) or appends a fresh participant; the other members are told a
peer connected and the joiner receives the current participant list
without itself together with the host's connection id. -/
theorem gamingJoinReplaceSemantics (st : ServerState) (roomId sock : String)
    (student : UserProfile) (room : GamingRoom)
    (he : strStarts roomId "EVENT-" = false) (hg : strStarts roomId "GAME-" = true)
    (hr : mget st.gamingRooms roomId = some room) :
    (room.participants.any (fun p => p.name == student.name) = true →
      ∃ room', mget (joinRoomOld st sock roomId student).1.gamingRooms roomId = some room'
        ∧ room'.participants = updateFirst (fun p => p.name == student.name)
            (fun _ => mkParticipant sock student) room.participants
        ∧ room'.participants.length = room.participants.length
        ∧ room'.participants.countP (fun p => p.name == student.name)
            = room.participants.countP (fun p => p.name == student.name))
  ∧ (room.participants.any (fun p => p.name == student.name) = false →
      ∃ room', mget (joinRoomOld st sock roomId student).1.gamingRooms roomId = some room'
        ∧ room'.participants = room.participants ++ [mkParticipant sock student])
  ∧ (∃ parts, (joinRoomOld st sock roomId student).2
      = [(Target.toRoomExcept roomId sock, Msg.userConnected sock),
         (Target.toSocket sock, Msg.roomJoinedGaming roomId room.hostSocketId
           (parts.filter (fun p => p.id != sock)))]
      ∧ mget (joinRoomOld st sock roomId student).1.gamingRooms roomId
          = some { room with participants := parts }) := by
  refine ⟨?_, ?_, ?_⟩
  · intro hany
    refine ⟨{ room with participants := updateFirst (fun p => p.name == student.name) (fun _ => mkParticipant sock student) room.participants }, ?_, rfl, ?_, ?_⟩
    · simp [joinRoomOld, he, hg, hr, hany, socketJoin, mget_mset_self]
    · exact updateFirst_length _ _ _
    · exact countP_updateFirst_stable _ _ _ (fun x _ => by simp [mkParticipant])
  · intro hany
    refine ⟨{ room with participants := room.participants ++ [mkParticipant sock student] }, ?_, rfl⟩
    simp [joinRoomOld, he, hg, hr, hany, socketJoin, mget_mset_self]
  · by_cases hany : room.participants.any (fun p => p.name == student.name) = true
    · refine ⟨updateFirst (fun p => p.name == student.name) (fun _ => mkParticipant sock student) room.participants, ?_, ?_⟩
      · simp [joinRoomOld, he, hg, hr, hany]
      · simp [joinRoomOld, he, hg, hr, hany, socketJoin, mget_mset_self]
    · refine ⟨room.participants ++ [mkParticipant sock student], ?_, ?_⟩
      · simp [joinRoomOld, he, hg, hr, hany]
      · simp [joinRoomOld, he, hg, hr, hany, socketJoin, mget_mset_self]

/-- The gaming room used by witnesses of the gaming-room claims. -/
def demoGamingRoom : GamingRoom :=
  { host := "Hank"
    hostSocketId := "h1"
    participants := [mkParticipant "b-old" { id := "u-b", name := "Bea", email := none, avatar := none }]
    messages := [] }

theorem gamingJoinReplaceSemantics_witness :
    strStarts "GAME-1" "EVENT-" = false
  ∧ strStarts "GAME-1" "GAME-" = true
  ∧ mget [("GAME-1", demoGamingRoom)] "GAME-1" = some demoGamingRoom
  ∧ demoGamingRoom.participants.any (fun p => p.name == "Bea") = true
  ∧ ∃ room', mget (joinRoomOld
      { teachingSessions := [], gamingRooms := [("GAME-1", demoGamingRoom)], events := [],
        wrtcRooms := [], ioRooms := [], socketJoined := [] } "b-new" "GAME-1"
      { id := "u-b", name := "Bea", email := none, avatar := none }).1.gamingRooms
        "GAME-1" = some room'
      ∧ room'.participants = updateFirst (fun p => p.name == ("Bea" : String))
          (fun _ => mkParticipant "b-new" { id := "u-b", name := "Bea", email := none, avatar := none })
          demoGamingRoom.participants
      ∧ room'.participants.length = demoGamingRoom.participants.length
      ∧ room'.participants.countP (fun p => p.name == ("Bea" : String))
          = demoGamingRoom.participants.countP (fun p => p.name == ("Bea" : String)) := by
  refine ⟨by decide, by decide, by decide, by decide, ?_⟩
  exact (gamingJoinReplaceSemantics
    { teachingSessions := [], gamingRooms := [("GAME-1", demoGamingRoom)], events := [],
      wrtcRooms := [], ioRooms := [], socketJoined := [] } "GAME-1" "b-new"
    { id := "u-b", name := "Bea", email := none, avatar := none } demoGamingRoom
    (by decide) (by decide) (by decide)).1 (by decide)

/-- C7: an event-room join succeeds exactly when the event exists with
active status; on success the attendee is appended, an attendee-joined
notification fans out to the whole room and the joining connection
receives the event snapshot (title, description, host name, attendees,
documents, settings); otherwise no member is appended, the state is
unchanged, and the joiner is sent the event-not-found failure (the
code's encoding of a room that is absent or not active). -/
theorem eventJoinActiveGate (st : ServerState) (roomId sock : String)
    (student : UserProfile) (hp : strStarts roomId "EVENT-" = true) :
    ((∃ t d hn atts docs stgs,
        (Target.toSocket sock, Msg.eventJoined roomId t d hn atts docs stgs)
          ∈ (joinRoomOld st sock roomId student).2)
      ↔ (∃ e, mget st.events roomId = some e ∧ e.status = EventStatus.active))
  ∧ (∀ e, mget st.events roomId = some e → e.status = EventStatus.active →
      mget (joinRoomOld st sock roomId student).1.events roomId
          = some { e with attendees := e.attendees ++ [mkAttendee sock student] }
        ∧ (joinRoomOld st sock roomId student).2
          = [(Target.toRoom roomId, Msg.attendeeJoined (mkAttendee sock student)),
             (Target.toSocket sock, Msg.eventJoined roomId e.title e.description
               e.hostName (e.attendees ++ [mkAttendee sock student]) e.documents
               e.settings)])
  ∧ (∀ e, mget st.events roomId = some e → e.status ≠ EventStatus.active →
      (joinRoomOld st sock roomId student).1 = st
        ∧ (joinRoomOld st sock roomId student).2
          = [(Target.toSocket sock, Msg.eventNotFound roomId)])
  ∧ (mget st.events roomId = none →
      (joinRoomOld st sock roomId student).1 = st
        ∧ (joinRoomOld st sock roomId student).2
          = [(Target.toSocket sock, Msg.eventNotFound roomId)]) := by
  refine ⟨?_, ?_, ?_, ?_⟩
  · constructor
    · intro ⟨t, d, hn, atts, docs, stgs, hmem⟩
      cases hge : mget st.events roomId with
      | none =>
        rw [show (joinRoomOld st sock roomId student).2
            = [(Target.toSocket sock, Msg.eventNotFound roomId)] by
          simp [joinRoomOld, hp, hge]] at hmem
        simp at hmem
      | some e =>
        by_cases hst : e.status = EventStatus.active
        · exact ⟨e, rfl, hst⟩
        · rw [show (joinRoomOld st sock roomId student).2
              = [(Target.toSocket sock, Msg.eventNotFound roomId)] by
            simp [joinRoomOld, hp, hge, hst]] at hmem
          simp at hmem
    · intro ⟨e, hge, hst⟩
      refine ⟨e.title, e.description, e.hostName, e.attendees ++ [mkAttendee sock student],
        e.documents, e.settings, ?_⟩
      simp [joinRoomOld, hp, hge, hst]
  · intro e hge hst
    constructor
    · simp [joinRoomOld, hp, hge, hst, socketJoin, mget_mset_self]
    · simp [joinRoomOld, hp, hge, hst]
  · intro e hge hst
    constructor <;> simp [joinRoomOld, hp, hge, hst]
  · intro hge
    constructor <;> simp [joinRoomOld, hp, hge]

theorem eventJoinActiveGate_witness :
    strStarts "EVENT-1" "EVENT-" = true
  ∧ mget [("EVENT-1", demoEvent)] "EVENT-1" = some demoEvent
  ∧ demoEvent.status = EventStatus.active
  ∧ (mget (joinRoomOld
      { teachingSessions := [], gamingRooms := [], events := [("EVENT-1", demoEvent)],
        wrtcRooms := [], ioRooms := [], socketJoined := [] } "a1" "EVENT-1"
      { id := "u-a", name := "Ana", email := none, avatar := none }).1.events "EVENT-1"
        = some { demoEvent with attendees := demoEvent.attendees
            ++ [mkAttendee "a1" { id := "u-a", name := "Ana", email := none, avatar := none }] }
    ∧ (joinRoomOld
      { teachingSessions := [], gamingRooms := [], events := [("EVENT-1", demoEvent)],
        wrtcRooms := [], ioRooms := [], socketJoined := [] } "a1" "EVENT-1"
      { id := "u-a", name := "Ana", email := none, avatar := none }).2
        = [(Target.toRoom "EVENT-1", Msg.attendeeJoined
            (mkAttendee "a1" { id := "u-a", name := "Ana", email := none, avatar := none })),
           (Target.toSocket "a1", Msg.eventJoined "EVENT-1" demoEvent.title
             demoEvent.description demoEvent.hostName
             (demoEvent.attendees ++ [mkAttendee "a1"
               { id := "u-a", name := "Ana", email := none, avatar := none }])
             demoEvent.documents demoEvent.settings)]) := by
  refine ⟨by decide, by decide, rfl, ?_⟩
  exact (eventJoinActiveGate
    { teachingSessions := [], gamingRooms := [], events := [("EVENT-1", demoEvent)],
      wrtcRooms := [], ioRooms := [], socketJoined := [] } "EVENT-1" "a1"
    { id := "u-a", name := "Ana", email := none, avatar := none }
    (by decide)).2.1 demoEvent (by decide) rfl

theorem deliveredTo_mem (ioR : SMap (List String)) (m : String)
    (es : List (Target × Msg)) (x : Msg) (hx : x ∈ deliveredTo ioR m es) :
    ∃ e ∈ es, e.2 = x := by
  unfold deliveredTo at hx
  rcases List.mem_filterMap.mp hx with ⟨e, he, hfe⟩
  refine ⟨e, he, ?_⟩
  obtain ⟨t, msg⟩ := e
  cases t with
  | toSocket s =>
    by_cases hc : (s == m) = true
    · simp [hc] at hfe
      exact hfe
    · simp [hc] at hfe
  | toRoom r =>
    by_cases hc : memberStr m ((mget ioR r).getD []) = true
    · simp [hc] at hfe
      exact hfe
    · simp [hc] at hfe
  | toRoomExcept r s =>
    by_cases hc : (memberStr m ((mget ioR r).getD []) && s != m) = true
    · simp only [hc, if_true] at hfe
      exact Option.some.inj hfe
    · simp only [hc] at hfe
      simp at hfe

theorem countP_deliveredTo_zero (ioR : SMap (List String)) (m : String)
    (es : List (Target × Msg)) (h : ∀ e ∈ es, isHostDisconnectedMsg e.2 = false) :
    (deliveredTo ioR m es).countP isHostDisconnectedMsg = 0 := by
  rw [List.countP_eq_zero]
  intro x hx
  obtain ⟨e, he, hex⟩ := deliveredTo_mem ioR m es x hx
  rw [← hex]
  simp [h e he]

theorem disconnecting_no_hostmsg (st : ServerState) (sock : String) :
    ∀ e ∈ disconnecting st sock, isHostDisconnectedMsg e.2 = false := by
  intro e he
  unfold disconnecting at he
  cases hc : (mget st.socketJoined sock).getD [] with
  | nil =>
    rw [hc] at he
    simp at he
  | cons r rs =>
    rw [hc] at he
    simp at he
    rw [he]
    rfl

theorem mget_filterSock (io : SMap (List String)) (roomId sock : String) :
    mget (io.map (fun e => (e.1, e.2.filter (fun x => x != sock)))) roomId
      = (mget io roomId).map (fun l => l.filter (fun x => x != sock)) := by
  induction io with
  | nil => rfl
  | cons p ps ih =>
    by_cases hc : p.1 = roomId
    · simp [mget, hc]
    · simp [mget, hc, ih]

theorem memberStr_filter_ne (l : List String) (m h : String)
    (hm : memberStr m l = true) (hne : m ≠ h) :
    memberStr m (l.filter (fun x => x != h)) = true := by
  induction l with
  | nil => simp [memberStr] at hm
  | cons x xs ih =>
    by_cases hx : x = m
    · subst hx
      have hxh : (x != h) = true := by
        simp [bne_iff_ne]
        exact hne
      simp [List.filter, hxh, memberStr]
    · have hm' : memberStr m xs = true := by
        unfold memberStr at hm
        simpa [show (x == m) = false by simp [hx]] using hm
      by_cases hxh : (x != h) = true
      · simp only [List.filter, hxh]
        unfold memberStr
        simp [show (x == m) = false by simp [hx], ih hm']
      · simp only [List.filter]
        rw [show (x != h) = false by simpa using hxh]
        exact ih hm'

theorem serverDisconnect_nil (st : ServerState) (sock : String)
    (h : st.teachingSessions = []) : serverDisconnect st sock = (st, []) := by
  obtain ⟨ts, gr, ev, wr, io, sj⟩ := st
  have h' : ts = [] := h
  subst h'
  rfl

theorem serverDisconnect_host (st : ServerState) (rid : String)
    (session : TeachingSession) (sock : String)
    (hts : st.teachingSessions = [(rid, session)])
    (hh : session.hostSocketId = sock) :
    serverDisconnect st sock
      = ({ st with teachingSessions := [(rid, { session with hostActive := some false })] },
         []) := by
  obtain ⟨ts, gr, ev, wr, io, sj⟩ := st
  have h' : ts = [(rid, session)] := hts
  subst h'
  unfold serverDisconnect
  simp [hh, mget, mset]

theorem wrtcDisconnect_single_host (st : ServerState) (roomId h : String) (w : WRoom)
    (hw : st.wrtcRooms = [(roomId, w)]) (hh : w.hostId = h) :
    wrtcHandleUserDisconnect st h
      = ({ st with wrtcRooms := [] }, [(Target.toRoom roomId, Msg.hostDisconnected)]) := by
  obtain ⟨ts, gr, ev, wr, io, sj⟩ := st
  have h' : wr = [(roomId, w)] := hw
  subst h'
  unfold wrtcHandleUserDisconnect wrtcDisconnectRoom
  simp [hh, mdel]

theorem deliveredTo_append (ioR : SMap (List String)) (m : String)
    (es1 es2 : List (Target × Msg)) :
    deliveredTo ioR m (es1 ++ es2) = deliveredTo ioR m es1 ++ deliveredTo ioR m es2 := by
  unfold deliveredTo
  exact List.filterMap_append _ _ _

/-- C4 (amended): when the host connection of a gaming room disconnects,
the WebRTC handler deletes the room from its own store (a lookup there
finds nothing) and every remaining member of the socket room receives
exactly one host-disconnected notification; but the `gamingRooms` store
of `server.js` — the store `join-room-old` and the room listing
consult — is left completely unchanged, so the room is still found by
subsequent lookups there. -/
theorem gamingHostDisconnectCleanup (st : ServerState) (roomId h m : String) (w : WRoom)
    (hw : st.wrtcRooms = [(roomId, w)]) (hh : w.hostId = h)
    (hts : st.teachingSessions = [])
    (hm : memberStr m ((mget st.ioRooms roomId).getD []) = true) (hmh : m ≠ h) :
    mget (handleDisconnect st h).1.wrtcRooms roomId = none
  ∧ (handleDisconnect st h).1.gamingRooms = st.gamingRooms
  ∧ (deliveredTo (handleDisconnect st h).1.ioRooms m
      (handleDisconnect st h).2).countP isHostDisconnectedMsg = 1 := by
  have hw1 : (socketLeaveAll st h).wrtcRooms = [(roomId, w)] := hw
  have hr2 := wrtcDisconnect_single_host (socketLeaveAll st h) roomId h w hw1 hh
  have hts2 : (wrtcHandleUserDisconnect (socketLeaveAll st h) h).1.teachingSessions = [] := by
    rw [hr2]
    exact hts
  have hr3 := serverDisconnect_nil (wrtcHandleUserDisconnect (socketLeaveAll st h) h).1 h hts2
  have hpipe : handleDisconnect st h
      = ({ socketLeaveAll st h with wrtcRooms := [] },
         disconnecting st h ++ [(Target.toRoom roomId, Msg.hostDisconnected)] ++ []) := by
    simp only [handleDisconnect]
    rw [hr3]
    simp only [hr2]
  refine ⟨?_, ?_, ?_⟩
  · rw [hpipe]
    rfl
  · rw [hpipe]
    rfl
  · rw [hpipe]
    cases hio : mget st.ioRooms roomId with
    | none =>
      rw [hio] at hm
      simp [memberStr] at hm
    | some members =>
      rw [hio] at hm
      simp only [Option.getD] at hm
      have hmem2 : memberStr m (members.filter (fun x => x != h)) = true :=
        memberStr_filter_ne members m h hm hmh
      rw [List.append_nil, deliveredTo_append, List.countP_append,
        countP_deliveredTo_zero _ _ _ (disconnecting_no_hostmsg st h)]
      have hone : deliveredTo ({ socketLeaveAll st h with wrtcRooms := ([] : SMap WRoom) }).ioRooms m
          [(Target.toRoom roomId, Msg.hostDisconnected)] = [Msg.hostDisconnected] := by
        simp [deliveredTo, socketLeaveAll, mget_filterSock, hio, hmem2]
      rw [hone]
      rfl

/-- Empty initial server state, as at process start. -/
def st0 : ServerState :=
  { teachingSessions := [], gamingRooms := [], events := [], wrtcRooms := [],
    ioRooms := [], socketJoined := [] }

/-- The state after host connection `h1` creates gaming room `GAME-1`
and connection `m1` joins it. -/
def gameDemoState : ServerState :=
  (joinRoomOld (createRoom st0 "h1" "GAME-1" "Hank").1 "m1" "GAME-1"
    { id := "u-m1", name := "Mia", email := none, avatar := none }).1

/-- C4 counterexample: after the host of gaming room `GAME-1`
disconnects, the room is still present in the `gamingRooms` store, so a
subsequent lookup of the room id still finds a room — against the
claim's "the room is deleted from the room store" and "a subsequent
lookup of that room id finds no room". -/
theorem gamingHostDisconnectLookupCex :
    (mget (handleDisconnect gameDemoState "h1").1.gamingRooms "GAME-1").isSome = true := by
  decide

theorem gamingHostDisconnectCleanup_witness :
    gameDemoState.wrtcRooms = [("GAME-1", { hostId := "h1", hostName := "Hank", students := [] })]
  ∧ ({ hostId := "h1", hostName := "Hank", students := [] } : WRoom).hostId = "h1"
  ∧ gameDemoState.teachingSessions = []
  ∧ memberStr "m1" ((mget gameDemoState.ioRooms "GAME-1").getD []) = true
  ∧ "m1" ≠ "h1"
  ∧ mget (handleDisconnect gameDemoState "h1").1.wrtcRooms "GAME-1" = none
  ∧ (handleDisconnect gameDemoState "h1").1.gamingRooms = gameDemoState.gamingRooms
  ∧ (deliveredTo (handleDisconnect gameDemoState "h1").1.ioRooms "m1"
      (handleDisconnect gameDemoState "h1").2).countP isHostDisconnectedMsg = 1 := by
  refine ⟨by decide, rfl, by decide, by decide, by decide, ?_⟩
  have h := gamingHostDisconnectCleanup gameDemoState "GAME-1" "h1" "m1"
    { hostId := "h1", hostName := "Hank", students := [] } (by decide) rfl (by decide)
    (by decide) (by decide)
  exact ⟨h.1, h.2.1, h.2.2⟩

/-- C8 (amended): when the host connection of a teaching room
disconnects, the teaching-session entry survives with `hostActive` set
to false and everything else (students, messages, notes, attendance,
feedback, host identity) unchanged, and the teaching branch of the
`server.js` disconnect listener itself emits nothing; however the
members are not left unnotified: the generic `disconnecting` broadcast
and the WebRTC handler — which also registered the room at create time
and deletes its own entry — deliver notifications, including exactly one
host-disconnected message to each remaining member of the socket room. -/
theorem teachingHostDisconnectKeepsRoom (st : ServerState) (rid h m : String)
    (session : TeachingSession) (w : WRoom)
    (hts : st.teachingSessions = [(rid, session)]) (hh : session.hostSocketId = h)
    (hw : st.wrtcRooms = [(rid, w)]) (hwh : w.hostId = h)
    (hm : memberStr m ((mget st.ioRooms rid).getD []) = true) (hmh : m ≠ h) :
    mget (handleDisconnect st h).1.teachingSessions rid
        = some { session with hostActive := some false }
  ∧ mget (handleDisconnect st h).1.wrtcRooms rid = none
  ∧ (serverDisconnect (wrtcHandleUserDisconnect (socketLeaveAll st h) h).1 h).2 = []
  ∧ (deliveredTo (handleDisconnect st h).1.ioRooms m
      (handleDisconnect st h).2).countP isHostDisconnectedMsg = 1 := by
  have hw1 : (socketLeaveAll st h).wrtcRooms = [(rid, w)] := hw
  have hr2 := wrtcDisconnect_single_host (socketLeaveAll st h) rid h w hw1 hwh
  have hts2 : (wrtcHandleUserDisconnect (socketLeaveAll st h) h).1.teachingSessions
      = [(rid, session)] := by
    rw [hr2]
    exact hts
  have hr3 := serverDisconnect_host (wrtcHandleUserDisconnect (socketLeaveAll st h) h).1
    rid session h hts2 hh
  have hpipe : handleDisconnect st h
      = ({ socketLeaveAll st h with wrtcRooms := [], teachingSessions := [(rid, { session with hostActive := some false })] },
         disconnecting st h ++ [(Target.toRoom rid, Msg.hostDisconnected)] ++ []) := by
    simp only [handleDisconnect]
    rw [hr3]
    simp only [hr2]
  refine ⟨?_, ?_, ?_, ?_⟩
  · rw [hpipe]
    simp [mget]
  · rw [hpipe]
    rfl
  · rw [hr3]
  · rw [hpipe]
    cases hio : mget st.ioRooms rid with
    | none =>
      rw [hio] at hm
      simp [memberStr] at hm
    | some members =>
      rw [hio] at hm
      simp only [Option.getD] at hm
      have hmem2 : memberStr m (members.filter (fun x => x != h)) = true :=
        memberStr_filter_ne members m h hm hmh
      rw [List.append_nil, deliveredTo_append, List.countP_append,
        countP_deliveredTo_zero _ _ _ (disconnecting_no_hostmsg st h)]
      have hone : deliveredTo ({ socketLeaveAll st h with wrtcRooms := ([] : SMap WRoom), teachingSessions := [(rid, { session with hostActive := some false })] }).ioRooms m
          [(Target.toRoom rid, Msg.hostDisconnected)] = [Msg.hostDisconnected] := by
        simp [deliveredTo, socketLeaveAll, mget_filterSock, hio, hmem2]
      rw [hone]
      rfl

/-- The state after host connection `th` creates teaching room `T1` and
student connection `ts` confirms joining it. -/
def teachDemoState : ServerState :=
  (confirmJoin (createRoom st0 "th" "T1" "Teach").1 "ts" "T1"
    { id := "stu-1", name := "Sam", email := none, avatar := none }).1

/-- C8 counterexample: when the host of teaching room `T1` disconnects,
the remaining student receives the `user-disconnected` broadcast of the
`disconnecting` listener and the `host-disconnected` broadcast of the
WebRTC handler — against the claim's "no notification is broadcast to
the members". -/
theorem teachingHostDisconnectBroadcastCex :
    deliveredTo (handleDisconnect teachDemoState "th").1.ioRooms "ts"
      (handleDisconnect teachDemoState "th").2
      = [Msg.userDisconnected "th", Msg.hostDisconnected] := by
  decide

theorem teachingHostDisconnectKeepsRoom_witness :
    teachDemoState.teachingSessions = [("T1",
      { freshTeachingSession "Teach" "th" with
          students := [{ id := "stu-1", name := "Sam", socketId := "ts" }] })]
  ∧ ({ freshTeachingSession "Teach" "th" with
        students := [{ id := "stu-1", name := "Sam", socketId := "ts" }] }).hostSocketId = "th"
  ∧ teachDemoState.wrtcRooms = [("T1", { hostId := "th", hostName := "Teach", students := [] })]
  ∧ ({ hostId := "th", hostName := "Teach", students := [] } : WRoom).hostId = "th"
  ∧ memberStr "ts" ((mget teachDemoState.ioRooms "T1").getD []) = true
  ∧ "ts" ≠ "th"
  ∧ mget (handleDisconnect teachDemoState "th").1.teachingSessions "T1"
      = some { { freshTeachingSession "Teach" "th" with
          students := [{ id := "stu-1", name := "Sam", socketId := "ts" }] } with
            hostActive := some false }
  ∧ (deliveredTo (handleDisconnect teachDemoState "th").1.ioRooms "ts"
      (handleDisconnect teachDemoState "th").2).countP isHostDisconnectedMsg = 1 := by
  refine ⟨by decide, rfl, by decide, rfl, by decide, by decide, ?_⟩
  have h := teachingHostDisconnectKeepsRoom teachDemoState "T1" "th" "ts"
    { freshTeachingSession "Teach" "th" with
        students := [{ id := "stu-1", name := "Sam", socketId := "ts" }] }
    { hostId := "th", hostName := "Teach", students := [] }
    (by decide) rfl (by decide) rfl (by decide) (by decide)
  exact ⟨h.1, h.2.2.2⟩
